import Mathlib

/-!
Verification of the brainstorm-helper queue-and-provider subsystem.

The definitions below are a shallow embedding of the repository's code:

* the message-queue engine of `useBrainstormQueue`
  (`addMessage`, `processQueue`, the post-drain re-enqueue check,
  `removeMessage`, `moveMessageUp`, and the localStorage save/load pair);
* the provider manager (`LLMProviderManager`) and the adapters'
  `isAvailable` probes;
* the `AgentProcessor` markdown-summary path
  (`generateMarkdownSummary` / `parseMarkdownSummary`) together with a
  JSON parser modelling `JSON.parse`.

Machine integers do not occur; JavaScript numbers used by the code are
message counters and millisecond clocks, modelled as `Nat`.  Ids that the
code builds from `Date.now()` plus randomness are modelled by a strictly
increasing per-state counter `now`, which supplies fresh ids and fresh
timestamps; the `finally`/`setTimeout` continuation of `processQueue` is a
separate atomic step, matching the single-threaded event-loop semantics in
which each synchronous block between suspension points runs atomically.
-/

namespace Brainstorm

/-- `'user' | 'assistant' | 'system'` of the hook's `Message.type`. -/
inductive Role where
  | user
  | assistant
  | system
deriving DecidableEq, Repr

/-- `'accumulate' | 'summarize' | 'generate'` of `AgentContext.processingStrategy`. -/
inductive Strategy where
  | accumulate
  | summarize
  | generate
deriving DecidableEq, Repr

/-- The hook's `Message` record (part_002 lines 6-12). -/
structure Message where
  id : Nat
  content : String
  timestamp : Nat
  type : Role
  processed : Bool
deriving DecidableEq, Repr

/-- The hook's `QueueItem` record (part_002 lines 14-19). -/
structure QueueItem where
  id : Nat
  message : Message
  priority : Nat
  addedAt : Nat
deriving DecidableEq, Repr

/-- The hook's `BrainstormStats` record (part_002 lines 21-27). -/
structure BrainstormStats where
  totalMessages : Nat
  processedMessages : Nat
  pendingMessages : Nat
  ideasGenerated : Nat
  lastProcessedAt : Option Nat
deriving DecidableEq, Repr

/-- The hook's `AgentMessage` record (part_002 lines 47-57, metadata unused). -/
structure AgentMessage where
  id : Nat
  role : Role
  content : String
  timestamp : Nat
deriving DecidableEq, Repr

/-- The part of `AgentContext` that `processQueue` touches
(part_002 lines 36-45; insight/idea/summary-point lists are only ever
read by prompts and never written by the queue engine). -/
structure AgentContext where
  conversationHistory : List AgentMessage
  lastProcessedAt : Nat
  processingStrategy : Strategy
deriving DecidableEq, Repr

/-- The engine state owned by `useBrainstormQueue`: the React state cells
plus `processingRef` (mirrored by `isProcessing`, which the hook keeps in
lock step with it), the `console.error` log of the `catch` branch, and the
`now` counter modelling `Date.now()`/id freshness. -/
structure EngineState where
  queue : List QueueItem
  messages : List Message
  stats : BrainstormStats
  agentContext : AgentContext
  isProcessing : Bool
  errorLog : List String
  now : Nat
deriving DecidableEq, Repr

/-- The batch snapshot held by an in-flight `processQueue` call between its
`await llmManager.generate` suspension point and its resumption. -/
structure Flight where
  batch : List Message
deriving DecidableEq, Repr

/-- `addMessage` (part_002 lines 192-218): build a fresh user message and
queue item, append both, bump `totalMessages` and `pendingMessages`. -/
def addMessage (content : String) (s : EngineState) : EngineState :=
  let message : Message :=
    { id := s.now, content := content, timestamp := s.now, type := .user, processed := false }
  let queueItem : QueueItem :=
    { id := s.now, message := message, priority := 1, addedAt := s.now }
  { s with
    queue := s.queue ++ [queueItem]
    messages := s.messages ++ [message]
    stats := { s.stats with
      totalMessages := s.stats.totalMessages + 1
      pendingMessages := s.stats.pendingMessages + 1 }
    now := s.now + 1 }

/-- Line 250 of part_002: queued messages become agent turns, any
non-assistant type mapping to role `user`. -/
def toAgentMessage (m : Message) : AgentMessage :=
  { id := m.id
    role := if m.type = .assistant then .assistant else .user
    content := m.content
    timestamp := m.timestamp }

/-- The synchronous prefix of `processQueue` (part_002 lines 230-303):
the `processingRef`/empty-queue guard, then — atomically, before the
`await` — snapshot and clear the queue, zero `pendingMessages`, append the
batch to the agent context, and mark the batch's messages processed.
`none` means the guard returned: no generation call is issued and no state
cell is written.  `some (s', f)` means a generation call for batch `f` is
now in flight. -/
def processQueueStart (s : EngineState) : Option (EngineState × Flight) :=
  if s.isProcessing || s.queue.length == 0 then none
  else
    let queuedMessages := s.queue.map (fun item => item.message)
    let agentMessages := queuedMessages.map toAgentMessage
    some
      ({ s with
          isProcessing := true
          queue := []
          stats := { s.stats with pendingMessages := 0 }
          agentContext :=
            { conversationHistory := s.agentContext.conversationHistory ++ agentMessages
              lastProcessedAt := s.now
              processingStrategy := .accumulate }
          messages := s.messages.map (fun m =>
            if queuedMessages.any (fun qm => qm.id == m.id) then
              { m with processed := true }
            else m)
          now := s.now + 1 },
        { batch := queuedMessages })

/-- Resumption of `processQueue` when the generation call succeeds
(part_002 lines 305-320 plus the `finally` clearing of the processing
flag): append the assistant message, bump `processedMessages` by the batch
size, stamp `lastProcessedAt`. -/
def processQueueSuccess (s : EngineState) (f : Flight) (responseContent : String) : EngineState :=
  let assistantMessage : Message :=
    { id := s.now, content := responseContent, timestamp := s.now
      type := .assistant, processed := true }
  { s with
    messages := s.messages ++ [assistantMessage]
    stats := { s.stats with
      processedMessages := s.stats.processedMessages + f.batch.length
      lastProcessedAt := some s.now }
    isProcessing := false
    now := s.now + 1 }

/-- Resumption of `processQueue` when the generation call fails
(part_002 lines 322-326): the `catch` only logs `console.error`, and the
`finally` clears the processing flag.  No other state cell is written. -/
def processQueueFailure (s : EngineState) (err : String) : EngineState :=
  { s with
    errorLog := s.errorLog ++ [err]
    isProcessing := false }

/-- The `setTimeout` continuation of `processQueue`'s `finally`
(part_002 lines 328-349): every user message with `processed = false` is
wrapped in a fresh queue item and appended to the queue, and
`pendingMessages` is bumped by their number. -/
def reEnqueueCheck (s : EngineState) : EngineState :=
  let unprocessedMessages := s.messages.filter (fun m => m.type == Role.user && !m.processed)
  if unprocessedMessages.length > 0 then
    { s with
      queue := s.queue ++ unprocessedMessages.map (fun m =>
        ({ id := s.now, message := m, priority := 1, addedAt := s.now } : QueueItem))
      stats := { s.stats with
        pendingMessages := s.stats.pendingMessages + unprocessedMessages.length }
      now := s.now + 1 }
  else s

/-- `removeMessage` (part_002 lines 410-427): drop the id from history and
queue; `Math.max(0, n - 1)` is truncated subtraction on `Nat`. -/
def removeMessage (messageId : Nat) (s : EngineState) : EngineState :=
  { s with
    messages := s.messages.filter (fun m => !(m.id == messageId))
    queue := s.queue.filter (fun item => !(item.message.id == messageId))
    stats := { s.stats with
      totalMessages := s.stats.totalMessages - 1
      pendingMessages := s.stats.pendingMessages - 1 } }

/-- The destructuring swap `[q[i], q[i-1]] = [q[i-1], q[i]]` of
`moveMessageUp` (part_002 line 439). -/
def swapWithPrev (l : List QueueItem) (i : Nat) : List QueueItem :=
  match l[i - 1]?, l[i]? with
  | some a, some b => (l.set (i - 1) b).set i a
  | _, _ => l

/-- The `setQueue` updater of `moveMessageUp` (part_002 lines 433-444):
find the entry by message id; if it is not the head, swap it with its
predecessor. -/
def moveMessageUpQueue (q : List QueueItem) (messageId : Nat) : List QueueItem :=
  match q.findIdx? (fun item => item.message.id == messageId) with
  | some i => if 0 < i then swapWithPrev q i else q
  | none => q

/-- The `setMessages` updater of `moveMessageUp` (part_002 lines 447-468):
split history into unprocessed-user and the rest, recompute the swapped
queue from the captured `queue`, and lay the unprocessed messages out in
the new queue order followed by the others. -/
def moveMessageUpMessages (messages : List Message) (q : List QueueItem) (messageId : Nat) :
    List Message :=
  let unprocessedMessages := messages.filter (fun m => m.type == Role.user && !m.processed)
  let processedMessages := messages.filter (fun m => !(m.type == Role.user && !m.processed))
  match q.findIdx? (fun item => item.message.id == messageId) with
  | some i =>
    if 0 < i then
      let newQueue := swapWithPrev q i
      (newQueue.filterMap (fun item =>
        unprocessedMessages.find? (fun m => m.id == item.message.id))) ++ processedMessages
    else messages
  | none => messages

/-- `moveMessageUp` (part_002 lines 430-469), both state updates. -/
def moveMessageUp (messageId : Nat) (s : EngineState) : EngineState :=
  { s with
    queue := moveMessageUpQueue s.queue messageId
    messages := moveMessageUpMessages s.messages s.queue messageId }

/-- The observable state after one `processQueue` invocation returns
synchronously: unchanged when the guard fires, otherwise the post-snapshot
state (with the generation call now in flight). -/
def processQueueAttempt (s : EngineState) : EngineState :=
  match processQueueStart s with
  | some (s', _) => s'
  | none => s

/-- The documented invariant: `pendingMessages` equals the number of user
messages in history with `processed = false`. -/
def pendingInvariant (s : EngineState) : Prop :=
  s.stats.pendingMessages =
    (s.messages.filter (fun m => m.type == Role.user && !m.processed)).length

/-- Fresh session (the hook's `useState` initialisers, part_002 lines 99-128). -/
def initialState : EngineState :=
  { queue := []
    messages := []
    stats := { totalMessages := 0, processedMessages := 0, pendingMessages := 0
               ideasGenerated := 0, lastProcessedAt := none }
    agentContext := { conversationHistory := [], lastProcessedAt := 0
                      processingStrategy := .accumulate }
    isProcessing := false
    errorLog := []
    now := 0 }

/-! ### The mid-drain submission trace

`submit "idea 1"`, start the drain, `submit "idea 2"` while the generation
call is in flight, let the call succeed, then run the 100 ms re-enqueue
check.  This is the execution the spec's "settles correctly even across an
in-flight drain plus new submissions" sentence is about. -/

/-- State after the first submission. -/
def exState1 : EngineState := addMessage "idea 1" initialState

/-- State right after the drain of `exState1` snapshots the queue. -/
def exState2 : EngineState := ((processQueueStart exState1).map Prod.fst).getD exState1

/-- The batch held by the in-flight drain. -/
def exFlight : Flight := ((processQueueStart exState1).map Prod.snd).getD { batch := [] }

/-- A second message submitted while the drain is in flight. -/
def exState3 : EngineState := addMessage "idea 2" exState2

/-- State after the in-flight generation call resolves successfully. -/
def exState4 : EngineState := processQueueSuccess exState3 exFlight "combined response"

/-- State after the post-drain re-enqueue check fires. -/
def exState5 : EngineState := reEnqueueCheck exState4

/-- A state with two queued submissions (for exercising reorder). -/
def exStateTwoQueued : EngineState := addMessage "idea B" (addMessage "idea A" initialState)

/-- The first queue entry of `exStateTwoQueued`. -/
def exItemA : QueueItem :=
  { id := 0, priority := 1, addedAt := 0
    message := { id := 0, content := "idea A", timestamp := 0, type := .user
                 processed := false } }

/-- The second queue entry of `exStateTwoQueued`. -/
def exItemB : QueueItem :=
  { id := 1, priority := 1, addedAt := 1
    message := { id := 1, content := "idea B", timestamp := 1, type := .user
                 processed := false } }

/-! ## Provider adapters: the availability probes

`isAvailable` of each adapter wraps one `fetch` in `try`/`catch`.  The
probe's outcome is modelled by `ProbeOutcome`: either the HTTP call
settled (carrying `response.ok`) or `fetch` threw.  Each adapter function
is total — returning `Bool` for every outcome is the model of "never
throws". -/

/-- Outcome of the one `fetch` issued by an `isAvailable` probe. -/
inductive ProbeOutcome where
  | success (ok : Bool)
  | networkError (msg : String)
deriving DecidableEq, Repr

/-- JavaScript truthiness of an optional `apiKey` string: `undefined` and
`''` are falsy. -/
def truthyKey : Option String → Bool
  | none => false
  | some s => !(s == "")

/-- `LlamaProvider.isAvailable` (llamaProvider.ts lines 51-64): return
`response.ok`; a thrown fetch is caught and becomes `false`. -/
def llamaIsAvailable (probe : ProbeOutcome) : Bool :=
  match probe with
  | .success ok => ok
  | .networkError _ => false

/-- `OpenAIProvider.isAvailable` (part_003 lines 48-66): `false` without a
(truthy) key, otherwise `response.ok`, with thrown fetches caught. -/
def openaiIsAvailable (apiKey : Option String) (probe : ProbeOutcome) : Bool :=
  if truthyKey apiKey then
    match probe with
    | .success ok => ok
    | .networkError _ => false
  else false

/-- `GeminiProvider.isAvailable` (part_005 lines 48-65, identically in
part_004 lines 306-323): same guard/try/catch shape as OpenAI. -/
def geminiIsAvailable (apiKey : Option String) (probe : ProbeOutcome) : Bool :=
  if truthyKey apiKey then
    match probe with
    | .success ok => ok
    | .networkError _ => false
  else false

/-! ## The provider manager (`llmProviderManager.ts`) -/

/-- Identity of a constructed adapter instance: which class was
instantiated, with the constructor arguments that matter
(`LlamaProvider`'s `baseUrl`, the external providers' `apiKey`). -/
inductive ProviderInst where
  | llamaP (baseUrl : String)
  | geminiP (apiKey : Option String)
  | openaiP (apiKey : Option String)
deriving DecidableEq, Repr

/-- The `baseUrl` the `LlamaProvider` constructor computes when no
argument is passed (llamaProvider.ts lines 43-49).  The env/hostname
branches are fixed for the lifetime of a session, so the default is one
ambient constant. -/
def llamaDefaultBaseUrl : String := "http://localhost:11434"

/-- `new LlamaProvider(baseUrl?)`: a falsy (absent or empty) argument
falls through to the ambient default. -/
def mkLlamaProvider (baseUrl : Option String) : ProviderInst :=
  match baseUrl with
  | some u => if u == "" then .llamaP llamaDefaultBaseUrl else .llamaP u
  | none => .llamaP llamaDefaultBaseUrl

/-- `LLMConfig` (llmProviderManager.ts lines 40-47). -/
structure LLMConfig where
  provider : String
  model : String
  temperature : Nat
  maxTokens : Nat
  apiKey : Option String
  url : Option String
deriving DecidableEq, Repr

/-- `Partial<LLMConfig>`: each field present or absent. -/
structure PartialConfig where
  provider : Option String := none
  model : Option String := none
  temperature : Option Nat := none
  maxTokens : Option Nat := none
  apiKey : Option String := none
  url : Option String := none
deriving DecidableEq, Repr

/-- The object spread `{ ...this.config, ...newConfig }`. -/
def mergeConfig (c : LLMConfig) (p : PartialConfig) : LLMConfig :=
  { provider := p.provider.getD c.provider
    model := p.model.getD c.model
    temperature := p.temperature.getD c.temperature
    maxTokens := p.maxTokens.getD c.maxTokens
    apiKey := match p.apiKey with | some k => some k | none => c.apiKey
    url := match p.url with | some u => some u | none => c.url }

/-- Insertion-ordered association list modelling the manager's
`Map<string, LLMProvider>`. -/
abbrev ProviderMap := List (String × ProviderInst)

/-- `Map.prototype.has`. -/
def mapHas (m : ProviderMap) (k : String) : Bool :=
  m.any (fun kv => kv.fst == k)

/-- `Map.prototype.get`, as an option. -/
def mapGet (m : ProviderMap) (k : String) : Option ProviderInst :=
  (m.find? (fun kv => kv.fst == k)).map (fun kv => kv.snd)

/-- `Map.prototype.set`: replace in place when the key exists, otherwise
append. -/
def mapSet (m : ProviderMap) (k : String) (v : ProviderInst) : ProviderMap :=
  if mapHas m k then
    m.map (fun kv => if kv.fst == k then (k, v) else kv)
  else m ++ [(k, v)]

/-- `LLMProviderManager`'s private state (lines 49-52): the provider map,
the current provider id (initially `'llama'`), and the session config. -/
structure Manager where
  providers : ProviderMap
  currentProvider : String
  config : LLMConfig
deriving DecidableEq, Repr

/-- `initializeProviders` (lines 59-71): register llama (constructed with
no url), gemini and openai (constructed with the config's apiKey). -/
def initializeProviders (config : LLMConfig) : ProviderMap :=
  mapSet (mapSet (mapSet [] "llama" (mkLlamaProvider none))
      "gemini" (.geminiP config.apiKey))
    "openai" (.openaiP config.apiKey)

/-- The constructor (lines 54-57). -/
def mkManager (config : LLMConfig) : Manager :=
  { providers := initializeProviders config
    currentProvider := "llama"
    config := config }

/-- `setProvider` (lines 85-91): switch and return `true` when the id is
registered, otherwise return `false` and change nothing. -/
def setProvider (providerName : String) (m : Manager) : Bool × Manager :=
  if mapHas m.providers providerName then
    (true, { m with currentProvider := providerName })
  else (false, m)

/-- `getCurrentProvider` (lines 93-95). -/
def getCurrentProvider (m : Manager) : Option ProviderInst :=
  mapGet m.providers m.currentProvider

/-- `updateConfig` (lines 105-120): merge the partial config; on a truthy
`apiKey`, re-instantiate gemini and openai with it (guarded by `has`); on
a truthy `url`, re-instantiate llama — constructed with NO argument. -/
def updateConfig (p : PartialConfig) (m : Manager) : Manager :=
  let provs1 :=
    if truthyKey p.apiKey then
      let pg := if mapHas m.providers "gemini" then
          mapSet m.providers "gemini" (.geminiP p.apiKey)
        else m.providers
      if mapHas pg "openai" then mapSet pg "openai" (.openaiP p.apiKey) else pg
    else m.providers
  let provs2 :=
    if truthyKey p.url && mapHas provs1 "llama" then
      mapSet provs1 "llama" (mkLlamaProvider none)
    else provs1
  { m with config := mergeConfig m.config p, providers := provs2 }

/-- The dispatch prefix of `generate` (lines 134-153): look up the current
provider and take the `Provider not found` error branch when the lookup
fails. -/
def generateDispatch (m : Manager) : Except String ProviderInst :=
  match getCurrentProvider m with
  | some p => .ok p
  | none => .error ("Provider " ++ m.currentProvider ++ " not found")

/-- The manager states reachable in a session: the constructor, then any
interleaving of `setProvider` and `updateConfig` (no other method writes
`providers`, `currentProvider` or `config`). -/
inductive ReachableM : Manager → Prop where
  | init (config : LLMConfig) : ReachableM (mkManager config)
  | set (name : String) (m : Manager) : ReachableM m → ReachableM (setProvider name m).2
  | update (p : PartialConfig) (m : Manager) : ReachableM m → ReachableM (updateConfig p m)

/-- A concrete session config (the hook's constructor argument,
part_002 lines 172-177). -/
def exConfig : LLMConfig :=
  { provider := "llama", model := "llama3.1", temperature := 7
    maxTokens := 2000, apiKey := none, url := none }

/-! ## JSON values and `JSON.parse`

`AgentProcessor.parseMarkdownSummary` is `try { return JSON.parse(content) }`
with a fixed fallback object in the `catch`.  The parser below models
`JSON.parse`: one value covering the whole input (up to whitespace), with
the standard object/array/string/number/literal grammar.  Number lexemes
are kept verbatim — no claim compares them numerically. -/

/-- Parsed JSON values.  Object fields keep source order; duplicate keys
are resolved last-wins at lookup, as JavaScript objects do. -/
inductive Json where
  | null
  | bool (b : Bool)
  | num (lexeme : String)
  | str (s : String)
  | arr (elems : List Json)
  | obj (fields : List (String × Json))
deriving Inhabited, Repr

/-- JSON insignificant whitespace. -/
def skipWs : List Char → List Char
  | [] => []
  | c :: rest =>
    if c == ' ' || c == '\n' || c == '\t' || c == '\r' then skipWs rest
    else c :: rest

/-- Value of one hexadecimal digit. -/
def hexVal (c : Char) : Option Nat :=
  if '0' ≤ c && c ≤ '9' then some (c.toNat - 48)
  else if 'a' ≤ c && c ≤ 'f' then some (c.toNat - 87)
  else if 'A' ≤ c && c ≤ 'F' then some (c.toNat - 55)
  else none

/-- Body of a JSON string literal, after the opening quote: plain
characters, the standard escapes, and `\uXXXX`; raw control characters and
bad escapes are errors. -/
def parseStringBody : Nat → List Char → List Char → Option (String × List Char)
  | 0, _, _ => none
  | _ + 1, [], _ => none
  | fuel + 1, c :: rest, acc =>
    if c == '"' then some (String.mk acc.reverse, rest)
    else if c == '\\' then
      match rest with
      | [] => none
      | e :: rest1 =>
        if e == '"' then parseStringBody fuel rest1 ('"' :: acc)
        else if e == '\\' then parseStringBody fuel rest1 ('\\' :: acc)
        else if e == '/' then parseStringBody fuel rest1 ('/' :: acc)
        else if e == 'n' then parseStringBody fuel rest1 ('\n' :: acc)
        else if e == 't' then parseStringBody fuel rest1 ('\t' :: acc)
        else if e == 'r' then parseStringBody fuel rest1 ('\r' :: acc)
        else if e == 'b' then parseStringBody fuel rest1 (Char.ofNat 8 :: acc)
        else if e == 'f' then parseStringBody fuel rest1 (Char.ofNat 12 :: acc)
        else if e == 'u' then
          match rest1 with
          | h1 :: h2 :: h3 :: h4 :: rest2 =>
            match hexVal h1, hexVal h2, hexVal h3, hexVal h4 with
            | some a, some b, some c2, some d =>
              parseStringBody fuel rest2 (Char.ofNat (((a * 16 + b) * 16 + c2) * 16 + d) :: acc)
            | _, _, _, _ => none
          | _ => none
        else none
    else if c.toNat < 32 then none
    else parseStringBody fuel rest (c :: acc)

/-- Drop a (possibly empty) run of decimal digits. -/
def dropDigits : List Char → List Char
  | [] => []
  | c :: rest => if c.isDigit then dropDigits rest else c :: rest

/-- Integer part of a JSON number: `0`, or a nonzero digit followed by
digits (JSON forbids leading zeros). -/
def chompInt : List Char → Option (List Char)
  | [] => none
  | '0' :: rest => some rest
  | c :: rest => if c.isDigit then some (dropDigits rest) else none

/-- Optional fraction part: `.` followed by at least one digit. -/
def chompFrac : List Char → Option (List Char)
  | '.' :: rest =>
    match rest with
    | c :: rest1 => if c.isDigit then some (dropDigits rest1) else none
    | [] => none
  | cs => some cs

/-- Digits of an exponent after an optional sign. -/
def chompExpDigits : List Char → Option (List Char)
  | [] => none
  | c :: rest => if c.isDigit then some (dropDigits rest) else none

/-- Optional exponent part: `e`/`E`, optional sign, digits. -/
def chompExp : List Char → Option (List Char)
  | 'e' :: rest =>
    match rest with
    | '+' :: rest1 => chompExpDigits rest1
    | '-' :: rest1 => chompExpDigits rest1
    | _ => chompExpDigits rest
  | 'E' :: rest =>
    match rest with
    | '+' :: rest1 => chompExpDigits rest1
    | '-' :: rest1 => chompExpDigits rest1
    | _ => chompExpDigits rest
  | cs => some cs

/-- Consume one JSON number from the front, returning the rest. -/
def chompNumber (cs : List Char) : Option (List Char) :=
  let body := match cs with
    | '-' :: rest => rest
    | _ => cs
  match chompInt body with
  | some afterInt =>
    match chompFrac afterInt with
    | some afterFrac => chompExp afterFrac
    | none => none
  | none => none

/-- Parse one JSON number, keeping its lexeme verbatim. -/
def parseNumber (cs : List Char) : Option (Json × List Char) :=
  match chompNumber cs with
  | some rest => some (.num (String.mk (cs.take (cs.length - rest.length))), rest)
  | none => none

mutual

/-- One JSON value at the front of the input. -/
def parseValue : Nat → List Char → Option (Json × List Char)
  | 0, _ => none
  | fuel + 1, cs =>
    match skipWs cs with
    | 'n' :: 'u' :: 'l' :: 'l' :: rest => some (.null, rest)
    | 't' :: 'r' :: 'u' :: 'e' :: rest => some (.bool true, rest)
    | 'f' :: 'a' :: 'l' :: 's' :: 'e' :: rest => some (.bool false, rest)
    | '"' :: rest =>
      match parseStringBody (fuel + 1) rest [] with
      | some (s, rest1) => some (.str s, rest1)
      | none => none
    | '[' :: rest =>
      (match skipWs rest with
       | ']' :: rest1 => some (.arr [], rest1)
       | _ => parseElemsLoop fuel rest [])
    | '\x7b' :: rest =>
      (match skipWs rest with
       | '\x7d' :: rest1 => some (.obj [], rest1)
       | _ => parseFieldsLoop fuel rest [])
    | c :: rest =>
      if c == '-' || c.isDigit then parseNumber (c :: rest) else none
    | [] => none

/-- Comma-separated values of a non-empty array, up to `]`. -/
def parseElemsLoop : Nat → List Char → List Json → Option (Json × List Char)
  | 0, _, _ => none
  | fuel + 1, cs, acc =>
    match parseValue fuel cs with
    | some (v, rest) =>
      (match skipWs rest with
       | ',' :: rest1 => parseElemsLoop fuel rest1 (v :: acc)
       | ']' :: rest1 => some (.arr (v :: acc).reverse, rest1)
       | _ => none)
    | none => none

/-- Comma-separated `"key": value` fields of a non-empty object, up to
the closing brace. -/
def parseFieldsLoop : Nat → List Char → List (String × Json) → Option (Json × List Char)
  | 0, _, _ => none
  | fuel + 1, cs, acc =>
    match skipWs cs with
    | '"' :: rest =>
      (match parseStringBody fuel rest [] with
       | some (k, rest1) =>
         (match skipWs rest1 with
          | ':' :: rest2 =>
            (match parseValue fuel rest2 with
             | some (v, rest3) =>
               (match skipWs rest3 with
                | ',' :: rest4 => parseFieldsLoop fuel rest4 ((k, v) :: acc)
                | '\x7d' :: rest4 => some (.obj ((k, v) :: acc).reverse, rest4)
                | _ => none)
             | none => none)
          | _ => none)
       | none => none)
    | _ => none

end

/-- `JSON.parse`: one value covering the entire input up to whitespace.
The fuel is an upper bound on the recursion depth; every recursive call
follows the consumption of at least one input character, so it is never
exhausted on real input. -/
def jparse (s : String) : Option Json :=
  match parseValue (s.data.length * 4 + 16) s.data with
  | some (j, rest) =>
    (match skipWs rest with
     | [] => some j
     | _ => none)
  | none => none

/-- JavaScript property access `parsed[k]` on a parsed JSON value:
`undefined` (`none`) unless the value is an object with that key; a
duplicate key resolves to its last occurrence. -/
def getField (j : Json) (k : String) : Option Json :=
  match j with
  | .obj fields => (fields.reverse.find? (fun kv => kv.fst == k)).map (fun kv => kv.snd)
  | _ => none

/-- `true` when the JSON number lexeme denotes zero (`0`, `-0`, `0.00`,
`0e5`, ...): it then contains no nonzero digit. -/
def numLexemeIsZero (lexeme : String) : Bool :=
  !(lexeme.data.any (fun c => '1' ≤ c && c ≤ '9'))

/-- JavaScript truthiness of a parsed JSON value. -/
def jsTruthy : Json → Bool
  | .null => false
  | .bool b => b
  | .num lexeme => !(numLexemeIsZero lexeme)
  | .str s => !(s == "")
  | .arr _ => true
  | .obj _ => true

/-- The `x || dflt` defaulting `generateMarkdownSummary` applies to each
field of the parsed object (`undefined` and falsy values both fall back). -/
def jsOr (v : Option Json) (dflt : Json) : Json :=
  match v with
  | some j => if jsTruthy j then j else dflt
  | none => dflt

/-- The untyped object `parseMarkdownSummary` hands back, seen through
the seven field accesses `generateMarkdownSummary` performs on it. -/
structure ParsedSummary where
  title : Option Json
  overview : Option Json
  keyInsights : Option Json
  generatedIdeas : Option Json
  actionItems : Option Json
  questions : Option Json
  nextSteps : Option Json
deriving Repr

/-- `AgentProcessor.parseMarkdownSummary` (part_007 lines 453-468): a bare
`JSON.parse(content)`; on any parse error, a fixed fallback object whose
`overview` is the raw text and whose list fields are empty.  Note: unlike
`parseAgentResponse`, there is no fenced-code-block or brace-scan
fallback here. -/
def parseMarkdownSummary (content : String) : ParsedSummary :=
  match jparse content with
  | some j =>
    { title := getField j "title"
      overview := getField j "overview"
      keyInsights := getField j "keyInsights"
      generatedIdeas := getField j "generatedIdeas"
      actionItems := getField j "actionItems"
      questions := getField j "questions"
      nextSteps := getField j "nextSteps" }
  | none =>
    { title := some (.str "Brainstorm Session")
      overview := some (.str content)
      keyInsights := some (.arr [])
      generatedIdeas := some (.arr [])
      actionItems := some (.arr [])
      questions := some (.arr [])
      nextSteps := some (.arr []) }

/-- The `MarkdownSummary` record as built by `generateMarkdownSummary`:
the seven payload fields are carried untyped (the code performs no
validation), plus the `createdAt` stamp. -/
structure MarkdownSummaryDoc where
  title : Json
  overview : Json
  keyInsights : Json
  generatedIdeas : Json
  actionItems : Json
  questions : Json
  nextSteps : Json
  createdAt : Nat
deriving Repr

/-- `AgentProcessor.generateMarkdownSummary` (part_007 lines 192-214),
from the provider's response text: parse (with fallback) and apply the
`|| default` of each field.  The provider call itself and the prompt are
outside this function, which models only response handling. -/
def generateMarkdownSummary (responseContent : String) (now : Nat) : MarkdownSummaryDoc :=
  let parsed := parseMarkdownSummary responseContent
  { title := jsOr parsed.title (.str ("Brainstorm Session - " ++ toString now))
    overview := jsOr parsed.overview (.str "No overview available")
    keyInsights := jsOr parsed.keyInsights (.arr [])
    generatedIdeas := jsOr parsed.generatedIdeas (.arr [])
    actionItems := jsOr parsed.actionItems (.arr [])
    questions := jsOr parsed.questions (.arr [])
    nextSteps := jsOr parsed.nextSteps (.arr [])
    createdAt := now }

/-- A well-formed summary payload in the shape
`buildMarkdownSummaryPrompt` requests. -/
def exInnerPayload : String :=
  "\x7b\"title\":\"T\",\"overview\":\"O\",\"keyInsights\":[\x7b\"id\":\"i1\",\"title\":\"K\",\"content\":\"C\",\"type\":\"insight\",\"priority\":1\x7d],\"generatedIdeas\":[],\"actionItems\":[],\"questions\":[],\"nextSteps\":[\"s1\"]\x7d"

/-- The same payload wrapped in unrelated prose and a fenced code block,
as end-to-end scenario E describes the model's response. -/
def exFencedResponse : String :=
  "Here is the summary you asked for:\n```json\n" ++ exInnerPayload ++ "\n```\nHope this helps!"

/-- The single key insight carried by `exInnerPayload`. -/
def exPointJson : Json :=
  .obj [("id", .str "i1"), ("title", .str "K"), ("content", .str "C"),
        ("type", .str "insight"), ("priority", .num "1")]

/-! ## Persistence (`saveToStorage` / `loadFromStorage`, part_002 lines 130-168)

`JSON.stringify` turns every `Date` — however deeply nested — into its
string form, and `JSON.parse` leaves it a string; `loadFromStorage` then
converts selected fields back with `new Date(...)`.  A timestamp is
therefore either a time value (`TimeVal.date`, milliseconds) or its
serialized string form (`TimeVal.str`).  The string form is modelled as
the decimal of the millisecond count: like the ISO form it determines the
time exactly, which is all the round-trip claims use. -/

/-- A timestamp as JavaScript sees it: a `Date` (time value) or the
string that serialization produced from one. -/
inductive TimeVal where
  | date (ms : Nat)
  | str (s : String)
deriving DecidableEq, Repr

/-- `true` on an actual time value. -/
def TimeVal.isDate : TimeVal → Bool
  | .date _ => true
  | .str _ => false

/-- The character of one decimal digit. -/
def digitChar (d : Nat) : Char := Char.ofNat (48 + d)

/-- The digit of one decimal character. -/
def charDigit (c : Char) : Nat := c.toNat - 48

/-- Little-endian decimal digits of `n` (with fuel; `fuel = n` suffices). -/
def natToLEDigits : Nat → Nat → List Nat
  | 0, _ => []
  | fuel + 1, n => if n = 0 then [] else n % 10 :: natToLEDigits fuel (n / 10)

/-- Serialized form of the time value `n` (its decimal string). -/
def timeToIso (n : Nat) : String :=
  String.mk (((natToLEDigits n n).map digitChar).reverse)

/-- Value of a little-endian digit list. -/
def lendToNat : List Nat → Nat
  | [] => 0
  | d :: rest => d + 10 * lendToNat rest

/-- Time value recovered from a serialized timestamp string. -/
def isoToTime (s : String) : Nat :=
  lendToNat (s.data.reverse.map charDigit)

/-- What `JSON.stringify` followed by `JSON.parse` does to a timestamp:
a `Date` comes back as its string form. -/
def stringifyTime : TimeVal → TimeVal
  | .date n => .str (timeToIso n)
  | .str s => .str s

/-- `new Date(x)` as applied by `loadFromStorage` to a parsed field. -/
def newDate : TimeVal → TimeVal
  | .date n => .date n
  | .str s => .date (isoToTime s)

/-- `Message` as persisted (ids and contents are strings in the blob). -/
structure PMessage where
  id : String
  content : String
  timestamp : TimeVal
  type : Role
  processed : Bool
deriving DecidableEq, Repr

/-- `QueueItem` as persisted. -/
structure PQueueItem where
  id : String
  message : PMessage
  priority : Nat
  addedAt : TimeVal
deriving DecidableEq, Repr

/-- `BrainstormStats` as persisted. -/
structure PStats where
  totalMessages : Nat
  processedMessages : Nat
  pendingMessages : Nat
  ideasGenerated : Nat
  lastProcessedAt : Option TimeVal
deriving DecidableEq, Repr

/-- `Insight` as persisted (part_002 lines 59-66). -/
structure PInsight where
  id : String
  content : String
  category : String
  confidence : Nat
  sourceMessageId : String
  extractedAt : TimeVal
deriving DecidableEq, Repr

/-- `Idea` as persisted (part_002 lines 68-76). -/
structure PIdea where
  id : String
  title : String
  description : String
  category : String
  priority : String
  relatedInsights : List String
  generatedAt : TimeVal
deriving DecidableEq, Repr

/-- `SummaryPoint` as persisted (part_002 lines 78-85; no date fields). -/
structure PSummaryPoint where
  id : String
  title : String
  content : String
  type : String
  priority : Nat
  relatedMessages : List String
deriving DecidableEq, Repr

/-- `AgentMessage` as persisted. -/
structure PAgentMessage where
  id : String
  role : Role
  content : String
  timestamp : TimeVal
deriving DecidableEq, Repr

/-- `AgentContext` as persisted (part_002 lines 36-45). -/
structure PAgentContext where
  sessionId : String
  conversationHistory : List PAgentMessage
  currentTopic : String
  extractedInsights : List PInsight
  generatedIdeas : List PIdea
  summaryPoints : List PSummaryPoint
  lastProcessedAt : TimeVal
  processingStrategy : Strategy
deriving DecidableEq, Repr

/-- `BrainstormContext` as persisted (part_002 lines 29-34). -/
structure PBrainstormContext where
  conversationHistory : List PMessage
  currentTopic : String
  generatedIdeas : List String
  lastContextUpdate : TimeVal
deriving DecidableEq, Repr

/-- `MarkdownSummary` as persisted (part_002 lines 87-96). -/
structure PMarkdownSummary where
  title : String
  overview : String
  keyInsights : List PSummaryPoint
  generatedIdeas : List PIdea
  actionItems : List PSummaryPoint
  questions : List PSummaryPoint
  nextSteps : List String
  createdAt : TimeVal
deriving DecidableEq, Repr

/-- The record `saveToStorage` serializes under the fixed storage key
(part_002 lines 133-143); `timestamp` is a plain number, not a `Date`. -/
structure PersistedData where
  messages : List PMessage
  queue : List PQueueItem
  stats : PStats
  context : PBrainstormContext
  agentContext : PAgentContext
  markdownSummary : Option PMarkdownSummary
  currentProvider : String
  autoProcess : Bool
  timestamp : Nat
deriving DecidableEq, Repr

/-- `JSON.stringify`/`JSON.parse` on a message: its `Date` becomes a string. -/
def jsonRoundMessage (m : PMessage) : PMessage :=
  { m with timestamp := stringifyTime m.timestamp }

/-- `JSON.stringify`/`JSON.parse` on a queue item. -/
def jsonRoundQueueItem (it : PQueueItem) : PQueueItem :=
  { it with addedAt := stringifyTime it.addedAt, message := jsonRoundMessage it.message }

/-- `JSON.stringify`/`JSON.parse` on the stats record. -/
def jsonRoundStats (st : PStats) : PStats :=
  { st with lastProcessedAt := st.lastProcessedAt.map stringifyTime }

/-- `JSON.stringify`/`JSON.parse` on an insight. -/
def jsonRoundInsight (i : PInsight) : PInsight :=
  { i with extractedAt := stringifyTime i.extractedAt }

/-- `JSON.stringify`/`JSON.parse` on an idea. -/
def jsonRoundIdea (i : PIdea) : PIdea :=
  { i with generatedAt := stringifyTime i.generatedAt }

/-- `JSON.stringify`/`JSON.parse` on an agent turn. -/
def jsonRoundAgentMessage (m : PAgentMessage) : PAgentMessage :=
  { m with timestamp := stringifyTime m.timestamp }

/-- `JSON.stringify`/`JSON.parse` on the agent context: every nested
`Date` becomes a string. -/
def jsonRoundAgentContext (ac : PAgentContext) : PAgentContext :=
  { ac with
    conversationHistory := ac.conversationHistory.map jsonRoundAgentMessage
    extractedInsights := ac.extractedInsights.map jsonRoundInsight
    generatedIdeas := ac.generatedIdeas.map jsonRoundIdea
    lastProcessedAt := stringifyTime ac.lastProcessedAt }

/-- `JSON.stringify`/`JSON.parse` on the brainstorm context. -/
def jsonRoundBContext (c : PBrainstormContext) : PBrainstormContext :=
  { c with
    conversationHistory := c.conversationHistory.map jsonRoundMessage
    lastContextUpdate := stringifyTime c.lastContextUpdate }

/-- `JSON.stringify`/`JSON.parse` on the saved summary. -/
def jsonRoundSummary (s : PMarkdownSummary) : PMarkdownSummary :=
  { s with
    generatedIdeas := s.generatedIdeas.map jsonRoundIdea
    createdAt := stringifyTime s.createdAt }

/-- The whole blob through `JSON.stringify` and `JSON.parse`. -/
def jsonRoundData (d : PersistedData) : PersistedData :=
  { d with
    messages := d.messages.map jsonRoundMessage
    queue := d.queue.map jsonRoundQueueItem
    stats := jsonRoundStats d.stats
    context := jsonRoundBContext d.context
    agentContext := jsonRoundAgentContext d.agentContext
    markdownSummary := d.markdownSummary.map jsonRoundSummary }

/-- Line 156: `{ ...msg, timestamp: new Date(msg.timestamp) }`. -/
def loadMessage (m : PMessage) : PMessage :=
  { m with timestamp := newDate m.timestamp }

/-- Line 157: revive `addedAt` and the wrapped message's `timestamp`. -/
def loadQueueItem (it : PQueueItem) : PQueueItem :=
  { it with addedAt := newDate it.addedAt, message := loadMessage it.message }

/-- Line 158: revive `lastProcessedAt` when present. -/
def loadStats (st : PStats) : PStats :=
  { st with lastProcessedAt := st.lastProcessedAt.map newDate }

/-- Line 159: revive only `lastContextUpdate`; the context's nested
message timestamps are left as parsed. -/
def loadBContext (c : PBrainstormContext) : PBrainstormContext :=
  { c with lastContextUpdate := newDate c.lastContextUpdate }

/-- Line 160: revive only `lastProcessedAt`; conversation turns, insights
and ideas keep their parsed (string) timestamps. -/
def loadAgentContext (ac : PAgentContext) : PAgentContext :=
  { ac with lastProcessedAt := newDate ac.lastProcessedAt }

/-- `loadFromStorage` (lines 151-168) applied to a parsed blob: selective
revival; `markdownSummary` is stored back exactly as parsed (line 161). -/
def loadData (d : PersistedData) : PersistedData :=
  { d with
    messages := d.messages.map loadMessage
    queue := d.queue.map loadQueueItem
    stats := loadStats d.stats
    context := loadBContext d.context
    agentContext := loadAgentContext d.agentContext
    markdownSummary := d.markdownSummary }

/-- Save the engine state and load it back in a fresh session. -/
def saveLoad (d : PersistedData) : PersistedData :=
  loadData (jsonRoundData d)

/-- All timestamps of a live (pre-serialization) blob are actual time
values. -/
def datesOnlyMessage (m : PMessage) : Bool := m.timestamp.isDate

/-- Live queue item: both dates are time values. -/
def datesOnlyQueueItem (it : PQueueItem) : Bool :=
  it.addedAt.isDate && datesOnlyMessage it.message

/-- Live stats: the optional stamp, when present, is a time value. -/
def datesOnlyStats (st : PStats) : Bool :=
  match st.lastProcessedAt with
  | some t => t.isDate
  | none => true

/-- Live agent context: every nested stamp is a time value. -/
def datesOnlyAgentContext (ac : PAgentContext) : Bool :=
  ac.conversationHistory.all (fun m => m.timestamp.isDate) &&
  ac.extractedInsights.all (fun i => i.extractedAt.isDate) &&
  ac.generatedIdeas.all (fun i => i.generatedAt.isDate) &&
  ac.lastProcessedAt.isDate

/-- Live brainstorm context. -/
def datesOnlyBContext (c : PBrainstormContext) : Bool :=
  c.conversationHistory.all datesOnlyMessage && c.lastContextUpdate.isDate

/-- Live summary document. -/
def datesOnlySummary (s : PMarkdownSummary) : Bool :=
  s.generatedIdeas.all (fun i => i.generatedAt.isDate) && s.createdAt.isDate

/-- Live blob: every timestamp anywhere in it is a time value. -/
def datesOnlyData (d : PersistedData) : Bool :=
  d.messages.all datesOnlyMessage &&
  d.queue.all datesOnlyQueueItem &&
  datesOnlyStats d.stats &&
  datesOnlyBContext d.context &&
  datesOnlyAgentContext d.agentContext &&
  (match d.markdownSummary with
   | some s => datesOnlySummary s
   | none => true)

/-- A concrete live blob: one processed message, an agent turn stamped at
time 5, and a saved summary stamped at time 7. -/
def exPersisted : PersistedData :=
  { messages := [{ id := "m1", content := "idea 1", timestamp := .date 3
                   type := .user, processed := true }]
    queue := []
    stats := { totalMessages := 1, processedMessages := 1, pendingMessages := 0
               ideasGenerated := 0, lastProcessedAt := some (.date 6) }
    context := { conversationHistory := [], currentTopic := ""
                 generatedIdeas := [], lastContextUpdate := .date 2 }
    agentContext := { sessionId := "session_1", conversationHistory :=
                        [{ id := "m1", role := .user, content := "idea 1"
                           timestamp := .date 5 }]
                      currentTopic := "", extractedInsights := []
                      generatedIdeas := [], summaryPoints := []
                      lastProcessedAt := .date 6, processingStrategy := .accumulate }
    markdownSummary := some { title := "t", overview := "o", keyInsights := []
                              generatedIdeas := [], actionItems := [], questions := []
                              nextSteps := [], createdAt := .date 7 }
    currentProvider := "llama"
    autoProcess := true
    timestamp := 8 }

/-! ## Helper lemmas: the timestamp codec round-trips -/

theorem charDigit_digitChar (d : Nat) (h : d < 10) : charDigit (digitChar d) = d := by
  interval_cases d <;> rfl

theorem natToLEDigits_lt (fuel n : Nat) : ∀ d ∈ natToLEDigits fuel n, d < 10 := by
  induction fuel generalizing n with
  | zero => simp [natToLEDigits]
  | succ fuel ih =>
    intro d hd
    simp only [natToLEDigits] at hd
    split at hd
    · simp at hd
    · rcases List.mem_cons.mp hd with h | h
      · subst h; exact Nat.mod_lt _ (by norm_num)
      · exact ih _ d h

theorem lendToNat_natToLEDigits (fuel : Nat) :
    ∀ n, n ≤ fuel → lendToNat (natToLEDigits fuel n) = n := by
  induction fuel with
  | zero =>
    intro n hn
    interval_cases n
    rfl
  | succ fuel ih =>
    intro n hn
    by_cases h0 : n = 0
    · subst h0; simp [natToLEDigits, lendToNat]
    · have hdiv : n / 10 ≤ fuel := by
        have := Nat.div_lt_self (Nat.pos_of_ne_zero h0) (by norm_num : 1 < 10)
        omega
      simp only [natToLEDigits, if_neg h0, lendToNat]
      rw [ih _ hdiv]
      omega

theorem isoToTime_timeToIso (n : Nat) : isoToTime (timeToIso n) = n := by
  show lendToNat ((((natToLEDigits n n).map digitChar).reverse).reverse.map charDigit) = n
  rw [List.reverse_reverse, List.map_map]
  calc lendToNat (List.map (charDigit ∘ digitChar) (natToLEDigits n n))
      = lendToNat (List.map id (natToLEDigits n n)) :=
        congrArg lendToNat
          (List.map_congr_left (fun d hd => charDigit_digitChar d (natToLEDigits_lt n n d hd)))
    _ = n := by rw [List.map_id]; exact lendToNat_natToLEDigits n n le_rfl

theorem newDate_stringifyTime (t : TimeVal) (h : t.isDate = true) :
    newDate (stringifyTime t) = t := by
  cases t with
  | date n => simp [stringifyTime, newDate, isoToTime_timeToIso]
  | str s => simp [TimeVal.isDate] at h

theorem loadMessage_roundtrip (m : PMessage) (h : datesOnlyMessage m = true) :
    loadMessage (jsonRoundMessage m) = m := by
  unfold loadMessage jsonRoundMessage
  rw [newDate_stringifyTime m.timestamp h]

theorem loadQueueItem_roundtrip (it : PQueueItem) (h : datesOnlyQueueItem it = true) :
    loadQueueItem (jsonRoundQueueItem it) = it := by
  unfold datesOnlyQueueItem at h
  rw [Bool.and_eq_true] at h
  unfold loadQueueItem jsonRoundQueueItem
  rw [loadMessage_roundtrip it.message h.2]
  rw [newDate_stringifyTime it.addedAt h.1]

theorem loadStats_roundtrip (st : PStats) (h : datesOnlyStats st = true) :
    loadStats (jsonRoundStats st) = st := by
  obtain ⟨a, b, c, d, e⟩ := st
  cases e with
  | none => rfl
  | some t =>
    simp only [datesOnlyStats] at h
    simp [loadStats, jsonRoundStats, newDate_stringifyTime t h]

/-! ## Claim C6: storage round-trip -/

/-- Claim C6 counterexample.  The claim asserts that the timestamps nested
inside the agent context's conversation turns and inside the saved
summary document come back as time values identical to the originals.  On
the concrete blob `exPersisted` (turn stamped at time 5, summary created
at time 7) the loaded turn timestamp is the string `"5"` — not the time
value `.date 5` it was saved from — and the loaded summary's `createdAt`
is the string `"7"`: `loadFromStorage` (part_002 lines 156-161) revives
neither field. -/
theorem nested_timestamps_not_revived :
    (saveLoad exPersisted).agentContext.conversationHistory.map (fun t => t.timestamp) =
      [TimeVal.str "5"] ∧
    (saveLoad exPersisted).agentContext.conversationHistory.map (fun t => t.timestamp) ≠
      exPersisted.agentContext.conversationHistory.map (fun t => t.timestamp) ∧
    (saveLoad exPersisted).markdownSummary.map (fun s => s.createdAt) =
      some (TimeVal.str "7") := by
  refine ⟨by decide, by decide, by decide⟩

/-- Claim C6, amended.  Serializing the persisted record and loading it
back reproduces message content, order and timestamps exactly for the
message history, the queue, the stats, the provider id, the auto-process
flag and the top-level context stamps; the timestamps nested inside the
agent context's conversation turns and inside the saved summary document
survive only in string form — still convertible to the original time
value (`newDate`), but not themselves time values after the load. -/
theorem storage_roundtrip_amended (d : PersistedData) (h : datesOnlyData d = true) :
    (saveLoad d).messages = d.messages ∧
    (saveLoad d).queue = d.queue ∧
    (saveLoad d).stats = d.stats ∧
    (saveLoad d).currentProvider = d.currentProvider ∧
    (saveLoad d).autoProcess = d.autoProcess ∧
    (saveLoad d).context.lastContextUpdate = d.context.lastContextUpdate ∧
    (saveLoad d).agentContext.lastProcessedAt = d.agentContext.lastProcessedAt ∧
    (saveLoad d).agentContext.conversationHistory.map (fun t => newDate t.timestamp) =
      d.agentContext.conversationHistory.map (fun t => t.timestamp) ∧
    (saveLoad d).markdownSummary.map (fun s => newDate s.createdAt) =
      d.markdownSummary.map (fun s => s.createdAt) := by
  unfold datesOnlyData at h
  simp only [Bool.and_eq_true] at h
  obtain ⟨⟨⟨⟨⟨hm, hq⟩, hst⟩, hc⟩, hac⟩, hsum⟩ := h
  unfold datesOnlyAgentContext at hac
  simp only [Bool.and_eq_true] at hac
  obtain ⟨⟨⟨hturns, _⟩, _⟩, haclast⟩ := hac
  unfold datesOnlyBContext at hc
  simp only [Bool.and_eq_true] at hc
  refine ⟨?_, ?_, ?_, rfl, rfl, ?_, ?_, ?_, ?_⟩
  · show (d.messages.map jsonRoundMessage).map loadMessage = d.messages
    rw [List.map_map]
    calc List.map (loadMessage ∘ jsonRoundMessage) d.messages
        = List.map id d.messages := List.map_congr_left (fun m hm2 => by
            rw [List.all_eq_true] at hm
            exact loadMessage_roundtrip m (hm m hm2))
      _ = d.messages := List.map_id _
  · show (d.queue.map jsonRoundQueueItem).map loadQueueItem = d.queue
    rw [List.map_map]
    calc List.map (loadQueueItem ∘ jsonRoundQueueItem) d.queue
        = List.map id d.queue := List.map_congr_left (fun it hit => by
            rw [List.all_eq_true] at hq
            exact loadQueueItem_roundtrip it (hq it hit))
      _ = d.queue := List.map_id _
  · exact loadStats_roundtrip d.stats hst
  · exact newDate_stringifyTime d.context.lastContextUpdate hc.2
  · exact newDate_stringifyTime d.agentContext.lastProcessedAt haclast
  · show ((d.agentContext.conversationHistory.map jsonRoundAgentMessage).map
        (fun t => newDate t.timestamp)) = _
    rw [List.map_map]
    refine List.map_congr_left (fun t ht => ?_)
    show newDate (stringifyTime t.timestamp) = t.timestamp
    rw [List.all_eq_true] at hturns
    exact newDate_stringifyTime t.timestamp (hturns t ht)
  · cases hms : d.markdownSummary with
    | none =>
      show ((d.markdownSummary.map jsonRoundSummary).map (fun s => newDate s.createdAt)) = _
      rw [hms]
      rfl
    | some s =>
      rw [hms] at hsum
      unfold datesOnlySummary at hsum
      rw [Bool.and_eq_true] at hsum
      show ((d.markdownSummary.map jsonRoundSummary).map (fun s => newDate s.createdAt)) = _
      rw [hms]
      show some (newDate (stringifyTime s.createdAt)) = some s.createdAt
      rw [newDate_stringifyTime s.createdAt hsum.2]

/-- Witness for `storage_roundtrip_amended` at the concrete blob
`exPersisted`, whose timestamps are all live time values. -/
theorem storage_roundtrip_amended_witness :
    datesOnlyData exPersisted = true ∧
    (saveLoad exPersisted).messages = exPersisted.messages := by
  exact ⟨by decide, (storage_roundtrip_amended exPersisted (by decide)).1⟩

/-! ## Claim C8: availability probes never throw -/

/-- Claim C8.  Every adapter's `probeAvailability` / `isAvailable` is a
total boolean function of the probe's outcome (totality is the model of
"never throws"), and every failure mode — missing or empty credential,
thrown network call, non-success HTTP response — yields `false`. -/
theorem isAvailable_failures_false (key : Option String) (msg : String) (ok : Bool) :
    llamaIsAvailable (.networkError msg) = false ∧
    llamaIsAvailable (.success false) = false ∧
    openaiIsAvailable none (.success ok) = false ∧
    openaiIsAvailable (some "") (.success ok) = false ∧
    openaiIsAvailable key (.networkError msg) = false ∧
    openaiIsAvailable key (.success false) = false ∧
    geminiIsAvailable none (.success ok) = false ∧
    geminiIsAvailable (some "") (.success ok) = false ∧
    geminiIsAvailable key (.networkError msg) = false ∧
    geminiIsAvailable key (.success false) = false := by
  refine ⟨rfl, rfl, rfl, rfl, ?_, ?_, rfl, rfl, ?_, ?_⟩
  · unfold openaiIsAvailable; split <;> rfl
  · unfold openaiIsAvailable; split <;> rfl
  · unfold geminiIsAvailable; split <;> rfl
  · unfold geminiIsAvailable; split <;> rfl

/-! ## Claims C9 and C10: the provider manager's registry invariant -/

/-- Structure of every reachable manager: the registry holds exactly the
three adapters registered by the constructor, with the llama entry always
the default-constructed instance, and the current id names one of them. -/
theorem reachable_shape (m : Manager) (h : ReachableM m) :
    (m.currentProvider = "llama" ∨ m.currentProvider = "gemini" ∨
      m.currentProvider = "openai") ∧
    ∃ g o, m.providers =
      [("llama", mkLlamaProvider none), ("gemini", ProviderInst.geminiP g),
       ("openai", ProviderInst.openaiP o)] := by
  induction h with
  | init config =>
    exact ⟨Or.inl rfl, config.apiKey, config.apiKey, rfl⟩
  | set name m hm ih =>
    obtain ⟨hcur, g, o, hprov⟩ := ih
    unfold setProvider
    by_cases hh : mapHas m.providers name = true
    · rw [if_pos hh]
      refine ⟨?_, g, o, hprov⟩
      rw [hprov] at hh
      simp [mapHas, List.any] at hh
      rcases hh with h1 | h1 | h1 <;> simp [h1]
    · rw [if_neg hh]
      exact ⟨hcur, g, o, hprov⟩
  | update p m hm ih =>
    obtain ⟨hcur, g, o, hprov⟩ := ih
    refine ⟨hcur, ?_⟩
    by_cases hk : truthyKey p.apiKey = true <;> by_cases hu : truthyKey p.url = true
    · refine ⟨p.apiKey, p.apiKey, ?_⟩
      simp [updateConfig, hprov, hk, hu, mapHas, mapSet]
    · refine ⟨p.apiKey, p.apiKey, ?_⟩
      simp [updateConfig, hprov, hk, hu, mapHas, mapSet]
    · refine ⟨g, o, ?_⟩
      simp [updateConfig, hprov, hk, hu, mapHas, mapSet]
    · refine ⟨g, o, ?_⟩
      simp [updateConfig, hprov, hk, hu, mapHas, mapSet]

/-- Claim C9.  In every reachable manager state the current provider id
names a registered adapter: `getCurrentProvider` never returns `null`, so
the `Provider '...' not found` branch of `generate` is unreachable; the
constructor registers `'llama'` as the initial current id; and
`setProvider` on an unknown id returns `false` and leaves the current id
unchanged. -/
theorem current_provider_always_registered (m : Manager) (h : ReachableM m) :
    (getCurrentProvider m).isSome = true ∧
    (∀ e, generateDispatch m ≠ Except.error e) ∧
    (∀ config, (mkManager config).currentProvider = "llama" ∧
      mapGet (mkManager config).providers "llama" = some (mkLlamaProvider none)) ∧
    (∀ name, mapHas m.providers name = false →
      (setProvider name m).1 = false ∧
      (setProvider name m).2.currentProvider = m.currentProvider) := by
  obtain ⟨hcur, g, o, hprov⟩ := reachable_shape m h
  have hsome : (getCurrentProvider m).isSome = true := by
    unfold getCurrentProvider
    rw [hprov]
    rcases hcur with h1 | h1 | h1 <;> rw [h1] <;> rfl
  refine ⟨hsome, ?_, ?_, ?_⟩
  · intro e habs
    unfold generateDispatch at habs
    rcases hget : getCurrentProvider m with _ | p
    · rw [hget] at hsome; simp at hsome
    · rw [hget] at habs; simp at habs
  · intro config
    exact ⟨rfl, rfl⟩
  · intro name hname
    unfold setProvider
    rw [if_neg (by rw [hname]; simp)]
    exact ⟨rfl, rfl⟩

/-- Witness for `current_provider_always_registered` at the freshly
constructed manager. -/
theorem current_provider_always_registered_witness :
    (getCurrentProvider (mkManager exConfig)).isSome = true ∧
    (setProvider "mistral" (mkManager exConfig)).1 = false :=
  ⟨(current_provider_always_registered (mkManager exConfig) (ReachableM.init exConfig)).1,
   ((current_provider_always_registered (mkManager exConfig)
      (ReachableM.init exConfig)).2.2.2 "mistral" (by decide)).1⟩

/-- Claim C10.  `updateConfig` never changes the set of registered
adapter ids nor the current provider id, and — because a `url` field only
triggers `new LlamaProvider()` with no argument — the llama adapter's
`baseUrl` is the ambient default in every reachable state, before and
after any `updateConfig` call: a configured url never reaches the llama
adapter. -/
theorem updateConfig_url_never_applied (m : Manager) (p : PartialConfig) (h : ReachableM m) :
    (updateConfig p m).providers.map Prod.fst = m.providers.map Prod.fst ∧
    (updateConfig p m).currentProvider = m.currentProvider ∧
    mapGet m.providers "llama" = some (ProviderInst.llamaP llamaDefaultBaseUrl) ∧
    mapGet (updateConfig p m).providers "llama" =
      some (ProviderInst.llamaP llamaDefaultBaseUrl) := by
  obtain ⟨hcur, g, o, hprov⟩ := reachable_shape m h
  obtain ⟨hcur2, g2, o2, hprov2⟩ := reachable_shape (updateConfig p m)
    (ReachableM.update p m h)
  refine ⟨?_, rfl, ?_, ?_⟩
  · rw [hprov, hprov2]; rfl
  · rw [hprov]; rfl
  · rw [hprov2]; rfl

/-- Witness for `updateConfig_url_never_applied`: a fresh manager updated
with a url that differs from the default. -/
theorem updateConfig_url_never_applied_witness :
    mapGet (updateConfig { url := some "http://evil:9999" } (mkManager exConfig)).providers
      "llama" = some (ProviderInst.llamaP llamaDefaultBaseUrl) :=
  (updateConfig_url_never_applied (mkManager exConfig) { url := some "http://evil:9999" }
    (ReachableM.init exConfig)).2.2.2

/-! ## Claim C1: the pending-count invariant across a drain -/

/-- Claim C1 is violated by the code.  On the mid-drain submission trace
(`exState1` … `exState5`): the drain genuinely starts, and after it
finishes and the re-enqueue check runs, `Stats.pendingMessages` is `2`
while exactly `1` user message is unprocessed — `addMessage` already
queued and counted the mid-drain submission, and the re-enqueue check
(part_002 lines 328-349) counts and queues it a second time.  The
invariant `pendingInvariant` therefore fails at a reachable state. -/
theorem pending_count_desync_after_reenqueue :
    (processQueueStart exState1).isSome = true ∧
    exState5.stats.pendingMessages = 2 ∧
    (exState5.messages.filter (fun m => m.type == Role.user && !m.processed)).length = 1 ∧
    ¬ pendingInvariant exState5 := by
  refine ⟨by decide, by decide, by decide, by unfold pendingInvariant; decide⟩

/-! ## Claim C3: uniqueness of queued message ids -/

/-- Claim C3 is violated by the code.  On the same mid-drain submission
trace, after the re-enqueue check the queue holds two entries wrapping
the same message id (the one submitted mid-drain): `addMessage` appended
it to the queue when it was submitted, and the re-enqueue check appended
a second entry for it.  Two queued entries then correspond to the single
unprocessed user message. -/
theorem queue_entry_duplicated_after_reenqueue :
    exState5.queue.map (fun item => item.message.id) = [2, 2] ∧
    ¬ (exState5.queue.map (fun item => item.message.id)).Nodup ∧
    (exState5.messages.filter (fun m => m.type == Role.user && !m.processed)).map
      (fun m => m.id) = [2] := by
  refine ⟨by decide, by decide, by decide⟩

/-! ## Claim C2: the in-flight guard -/

/-- Claim C2.  Invoking `processQueue` while a drain is in flight or
while the queue is empty issues no generation call and leaves the state
unchanged (the guard at part_002 line 231 returns before any write); and
when an invocation does start a drain, a second invocation arriving while
it is in flight is a no-op — two immediate invocations issue exactly one
generation call. -/
theorem processQueue_noop_guards (s : EngineState) :
    ((s.isProcessing = true ∨ s.queue = []) →
      processQueueStart s = none ∧ processQueueAttempt s = s) ∧
    (∀ s' f, processQueueStart s = some (s', f) → processQueueStart s' = none) := by
  constructor
  · intro h
    have hnone : processQueueStart s = none := by
      unfold processQueueStart
      rcases h with h | h
      · rw [h]; simp
      · rw [h]; simp
    refine ⟨hnone, ?_⟩
    unfold processQueueAttempt
    rw [hnone]
  · intro s' f h
    simp only [processQueueStart] at h
    by_cases hp : (s.isProcessing || s.queue.length == 0) = true
    · rw [if_pos hp] at h; cases h
    · rw [if_neg hp] at h
      injection h with h1
      obtain ⟨rfl, rfl⟩ := And.intro (congrArg Prod.fst h1) (congrArg Prod.snd h1)
      unfold processQueueStart
      simp

/-- Witness for `processQueue_noop_guards`: draining the fresh empty
session is a no-op, and re-invoking the drain right after `exState1`'s
drain started is a no-op. -/
theorem processQueue_noop_guards_witness :
    processQueueStart initialState = none ∧ processQueueStart exState2 = none :=
  ⟨((processQueue_noop_guards initialState).1 (Or.inr rfl)).1,
   (processQueue_noop_guards exState1).2 exState2 exFlight (by rfl)⟩

/-! ## Claim C4: failure of the generation call -/

/-- Claim C4.  If the generation call of an in-flight drain fails, the
resumption appends no assistant message, keeps the drained batch's turns
in the agent context and the drained messages marked processed, does not
return the batch to the queue, clears the processing flag (the engine
accepts further input), and records the failure in the error log. -/
theorem generation_failure_semantics (s0 s : EngineState) (f : Flight) (err : String)
    (h : processQueueStart s0 = some (s, f)) :
    (processQueueFailure s err).messages = s.messages ∧
    (∀ m ∈ (processQueueFailure s err).messages,
      f.batch.any (fun qm => qm.id == m.id) = true → m.processed = true) ∧
    (processQueueFailure s err).agentContext.conversationHistory =
      s0.agentContext.conversationHistory ++ f.batch.map toAgentMessage ∧
    (processQueueFailure s err).queue = s.queue ∧
    (processQueueFailure s err).isProcessing = false ∧
    (processQueueFailure s err).errorLog = s.errorLog ++ [err] := by
  simp only [processQueueStart] at h
  by_cases hp : (s0.isProcessing || s0.queue.length == 0) = true
  · rw [if_pos hp] at h; cases h
  · rw [if_neg hp] at h
    injection h with h1
    obtain ⟨rfl, rfl⟩ := And.intro (congrArg Prod.fst h1) (congrArg Prod.snd h1)
    refine ⟨rfl, ?_, rfl, rfl, rfl, rfl⟩
    intro m hm hbatch
    simp only [processQueueFailure] at hm
    rw [List.mem_map] at hm
    obtain ⟨m0, hm0, rfl⟩ := hm
    by_cases hq : (s0.queue.map (fun item => item.message)).any
        (fun qm => qm.id == m0.id) = true
    · rw [if_pos hq]
    · rw [if_neg hq]
      rw [if_neg hq] at hbatch
      exact absurd hbatch hq

/-- Witness for `generation_failure_semantics`: the drain started from
`exState1` fails with a concrete error. -/
theorem generation_failure_semantics_witness :
    (processQueueFailure exState2 "GenerationError").isProcessing = false ∧
    (processQueueFailure exState2 "GenerationError").errorLog = ["GenerationError"] := by
  have h := generation_failure_semantics exState1 exState2 exFlight "GenerationError" (by rfl)
  exact ⟨h.2.2.2.2.1, h.2.2.2.2.2⟩

/-! ## Helper lemmas for `moveMessageUp` -/

theorem findIdx?_prefix_false (p : QueueItem → Bool) (pre : List QueueItem)
    (h : ∀ x ∈ pre, p x = false) (l : List QueueItem) :
    (pre ++ l).findIdx? p = (l.findIdx? p).map (fun i => i + pre.length) := by
  induction pre with
  | nil => simp
  | cons x pre ih =>
    rw [List.cons_append]
    have hx : p x = false := h x (by simp)
    simp only [List.findIdx?_cons, hx, Bool.false_eq_true, if_false]
    rw [List.findIdx?_start_succ, ih (fun y hy => h y (by simp [hy]))]
    cases l.findIdx? p <;> simp
    omega

theorem set_append_self (pre : List QueueItem) (x : QueueItem) (l : List QueueItem)
    (v : QueueItem) : (pre ++ x :: l).set pre.length v = pre ++ v :: l := by
  induction pre with
  | nil => rfl
  | cons y pre ih => simp [List.set, ih]

theorem swapWithPrev_append (pre : List QueueItem) (a b : QueueItem)
    (post : List QueueItem) :
    swapWithPrev (pre ++ a :: b :: post) (pre.length + 1) = pre ++ b :: a :: post := by
  have e1 : (pre ++ a :: b :: post)[pre.length]? = some a := by
    rw [List.getElem?_append]
    simp
  have e2 : (pre ++ a :: b :: post)[pre.length + 1]? = some b := by
    rw [List.getElem?_append]
    simp
  unfold swapWithPrev
  have hidx : pre.length + 1 - 1 = pre.length := rfl
  rw [hidx, e1, e2]
  calc ((pre ++ a :: b :: post).set pre.length b).set (pre.length + 1) a
      = (pre ++ b :: b :: post).set (pre.length + 1) a := by rw [set_append_self]
    _ = ((pre ++ [b]) ++ b :: post).set ((pre ++ [b]).length) a := by simp
    _ = (pre ++ [b]) ++ a :: post := by rw [set_append_self]
    _ = pre ++ b :: a :: post := by simp

theorem find?_eq_of_nodup_ids (u : List Message) (x : Message)
    (hnd : (u.map (fun m => m.id)).Nodup) (hx : x ∈ u) :
    u.find? (fun m => m.id == x.id) = some x := by
  induction u with
  | nil => cases hx
  | cons y u ih =>
    rw [List.map_cons, List.nodup_cons] at hnd
    rcases List.mem_cons.mp hx with rfl | hx2
    · simp [List.find?]
    · have hy : (y.id == x.id) = false := by
        refine beq_eq_false_iff_ne.mpr (fun he => hnd.1 ?_)
        rw [he]
        exact List.mem_map_of_mem _ hx2
      simp only [List.find?, hy]
      exact ih hnd.2 hx2

theorem filterMap_find?_eq_map (q : List QueueItem) (u : List Message)
    (h : ∀ it ∈ q, u.find? (fun m => m.id == it.message.id) = some it.message) :
    q.filterMap (fun it => u.find? (fun m => m.id == it.message.id)) =
      q.map (fun it => it.message) := by
  induction q with
  | nil => rfl
  | cons it q ih =>
    rw [List.filterMap_cons, h it (by simp), List.map_cons]
    rw [ih (fun x hx => h x (List.mem_cons_of_mem _ hx))]

/-! ## Claim C7: promoting a queued entry -/

/-- Claim C7.  `moveMessageUp` on the head entry is a no-op on the whole
state.  On a non-head entry (its predecessor `a`, earlier entries `pre`,
later entries `post`), provided message ids are queue-unique and the
displayed unprocessed-user order currently equals the queue order, it
swaps exactly that entry with its immediate predecessor — every other
queue position is unchanged, as the explicit `pre`/`post` decomposition
shows — and afterwards the displayed order of unprocessed user messages
equals the new queue order. -/
theorem moveMessageUp_swap_spec (s : EngineState) (mid : Nat) :
    (∀ a rest, s.queue = a :: rest → (a.message.id == mid) = true →
      moveMessageUp mid s = s) ∧
    (∀ pre a b post,
      s.queue = pre ++ a :: b :: post →
      (∀ x ∈ pre, (x.message.id == mid) = false) →
      (a.message.id == mid) = false →
      (b.message.id == mid) = true →
      (s.queue.map (fun it => it.message.id)).Nodup →
      s.messages.filter (fun m => m.type == Role.user && !m.processed) =
        s.queue.map (fun it => it.message) →
      (moveMessageUp mid s).queue = pre ++ b :: a :: post ∧
      (moveMessageUp mid s).messages.filter
          (fun m => m.type == Role.user && !m.processed) =
        (pre ++ b :: a :: post).map (fun it => it.message)) := by
  constructor
  · intro a rest hq ha
    unfold moveMessageUp moveMessageUpQueue moveMessageUpMessages
    rw [hq]
    have hfind : (a :: rest).findIdx? (fun item => item.message.id == mid) = some 0 := by
      simp [List.findIdx?_cons, ha]
    rw [hfind]
    simp
    rw [← hq]
  · intro pre a b post hq hpre ha hb hnd hcorr
    have hfind : s.queue.findIdx? (fun item => item.message.id == mid) =
        some (pre.length + 1) := by
      rw [hq, findIdx?_prefix_false _ pre hpre]
      have : (a :: b :: post).findIdx? (fun item => item.message.id == mid) = some 1 := by
        simp [List.findIdx?_cons, ha, hb]
      rw [this]
      simp [Nat.add_comm]
    have hmemq : ∀ it, it ∈ pre ++ b :: a :: post → it ∈ s.queue := by
      intro it hit
      rw [hq]
      simp only [List.mem_append, List.mem_cons] at hit ⊢
      tauto
    have hfound : ∀ it ∈ pre ++ b :: a :: post,
        (s.messages.filter (fun m => m.type == Role.user && !m.processed)).find?
          (fun m => m.id == it.message.id) = some it.message := by
      intro it hit
      apply find?_eq_of_nodup_ids
      · rw [hcorr, List.map_map]
        exact hnd
      · rw [hcorr]
        exact List.mem_map_of_mem _ (hmemq it hit)
    constructor
    · show moveMessageUpQueue s.queue mid = _
      unfold moveMessageUpQueue
      rw [hfind]
      simp only [Nat.zero_lt_succ, if_true]
      rw [hq, swapWithPrev_append]
    · show (moveMessageUpMessages s.messages s.queue mid).filter _ = _
      unfold moveMessageUpMessages
      rw [hfind]
      simp only [Nat.zero_lt_succ, if_true]
      rw [hq, swapWithPrev_append]
      rw [filterMap_find?_eq_map _ _ hfound]
      rw [List.filter_append]
      have h1 : ((pre ++ b :: a :: post).map (fun it => it.message)).filter
          (fun m => m.type == Role.user && !m.processed) =
          (pre ++ b :: a :: post).map (fun it => it.message) := by
        refine List.filter_eq_self.mpr (fun m hm => ?_)
        rw [List.mem_map] at hm
        obtain ⟨it, hit, rfl⟩ := hm
        have : it.message ∈ s.messages.filter
            (fun m => m.type == Role.user && !m.processed) := by
          rw [hcorr]
          exact List.mem_map_of_mem _ (hmemq it hit)
        exact (List.mem_filter.mp this).2
      have h2 : (s.messages.filter
            (fun m => !(m.type == Role.user && !m.processed))).filter
          (fun m => m.type == Role.user && !m.processed) = [] := by
        refine List.filter_eq_nil_iff.mpr (fun m hm => ?_)
        have hmem := (List.mem_filter.mp hm).2
        simp only [Bool.not_eq_true'] at hmem
        simp [hmem]
      rw [h1, h2, List.append_nil]

/-- Witness for `moveMessageUp_swap_spec`: a two-entry queue in a state
where the displayed order matches; promoting the second entry swaps the
two, promoting the head is a no-op. -/
theorem moveMessageUp_swap_spec_witness :
    moveMessageUp 0 exStateTwoQueued = exStateTwoQueued ∧
    (moveMessageUp 1 exStateTwoQueued).queue.map (fun it => it.message.id) = [1, 0] := by
  have hhead := (moveMessageUp_swap_spec exStateTwoQueued 0).1 exItemA [exItemB]
    (by decide) (by decide)
  have hswap := (moveMessageUp_swap_spec exStateTwoQueued 1).2 [] exItemA exItemB []
    (by decide) (by decide) (by decide) (by decide) (by decide) (by decide)
  refine ⟨hhead, ?_⟩
  rw [hswap.1]
  decide

set_option maxRecDepth 16384

/-! ## Claim C5: summary parsing -/

/-- Claim C5 counterexample.  The concrete response `exFencedResponse`
carries a well-formed structured payload (`exInnerPayload`, whose
`keyInsights` list is non-empty: conjunct 2) wrapped in a fenced code
block and unrelated prose, exactly the shape end-to-end scenario E
describes.  But `parseMarkdownSummary` attempts only a direct
`JSON.parse`, which fails on the surrounding prose (conjunct 1), so the
produced document has EMPTY `keyInsights` and the raw text as its
overview (conjuncts 3 and 4): the claimed fenced-block tolerance does not
exist on the summary path — it exists only in `parseAgentResponse`. -/
theorem fenced_summary_payload_not_parsed :
    jparse exFencedResponse = none ∧
    (jparse exInnerPayload).bind (fun j => getField j "keyInsights") =
      some (.arr [exPointJson]) ∧
    (generateMarkdownSummary exFencedResponse 0).keyInsights = .arr [] ∧
    (generateMarkdownSummary exFencedResponse 0).overview = .str exFencedResponse :=
  ⟨rfl, rfl, rfl, rfl⟩

/-- Claim C5, amended.  The summary parser tolerates only a bare
structured payload.  For every response that does not directly parse as
one — including well-formed payloads wrapped in fenced code blocks or
prose — the result is the minimal document: its overview holds the raw
response text (the placeholder `No overview available` when the response
is empty, since the raw text is then falsy) and all its list fields are
empty; no failure is thrown (the function is total).  A bare well-formed
payload still yields its non-empty `keyInsights` (final conjunct). -/
theorem summary_parse_fallback_amended (content : String) (now : Nat)
    (hfail : jparse content = none) (hne : content ≠ "") :
    (generateMarkdownSummary content now).overview = .str content ∧
    (generateMarkdownSummary content now).keyInsights = .arr [] ∧
    (generateMarkdownSummary content now).generatedIdeas = .arr [] ∧
    (generateMarkdownSummary content now).actionItems = .arr [] ∧
    (generateMarkdownSummary content now).questions = .arr [] ∧
    (generateMarkdownSummary content now).nextSteps = .arr [] ∧
    (generateMarkdownSummary exInnerPayload now).keyInsights = .arr [exPointJson] := by
  have hp : parseMarkdownSummary content =
      { title := some (.str "Brainstorm Session")
        overview := some (.str content)
        keyInsights := some (.arr [])
        generatedIdeas := some (.arr [])
        actionItems := some (.arr [])
        questions := some (.arr [])
        nextSteps := some (.arr []) } := by
    unfold parseMarkdownSummary
    rw [hfail]
  refine ⟨?_, ?_, ?_, ?_, ?_, ?_, rfl⟩ <;>
    simp [generateMarkdownSummary, hp, jsOr, jsTruthy, hne]

/-- Witness for `summary_parse_fallback_amended` on a concrete
unparseable response. -/
theorem summary_parse_fallback_amended_witness :
    (generateMarkdownSummary "not json" 0).overview = .str "not json" ∧
    (generateMarkdownSummary "not json" 0).keyInsights = .arr [] :=
  ⟨(summary_parse_fallback_amended "not json" 0 rfl (by decide)).1,
   (summary_parse_fallback_amended "not json" 0 rfl (by decide)).2.1⟩

end Brainstorm
